import Mathlib

/-!
Verification of the core components of the `gorebill/vscode-settings`
extension against its natural-language specification.

The repository ships two revisions of the extension entry point:
`src/extension.ts` (current, with the `ProjectAnalyzer`) and a fuller
earlier revision (the file named `part_003` here) that carries the
complete property resolver the specification describes (sentinel
`"unknown"`, trailing-comma stripping, whole-document parse).  The
Property Resolver definitions below are translated from that fuller
revision; the Project Type Analyzer, primary-signature selection,
documentation lookup and `isConfigFile` are translated from
`src/extension.ts` (the two revisions agree verbatim on the latter
three).

Modelling conventions:
* strings are processed as `List Char`;
* the two regular expressions of `getPropertyAtPosition`
  (`/"([^"]+)"\s*:\s*(.+?)(?:,\s*$|$)/` and `/"([^"]+)"/`) are
  translated into explicit leftmost-match scanners whose backtracking
  order mirrors the JavaScript engine (greedy `\s*`, lazy `.+?`,
  left-to-right alternation);
* `JSON.parse` is modelled by a fuel-indexed recursive-descent parser;
  numbers are carried as their source lexemes (the claims under
  verification never depend on float canonicalisation);
* the filesystem seen by the analyzer is a pair of oracles
  (`existsSync`, `readdirSync`), with `readdirSync = none` standing for
  a thrown error caught by the `try`/`catch` of the source.
-/

namespace VSCS

/-- The character class of the JavaScript `\s` escape, restricted to the
ASCII range (document lines and paths in all claims are ASCII). -/
def jsWsChar (c : Char) : Bool :=
  c = ' ' || c = '\t' || c = '\n' || c = '\r' || c = '\x0b' || c = '\x0c'

/-- JavaScript `String.prototype.trim` on a character list. -/
def jsTrim (s : List Char) : List Char :=
  ((s.dropWhile jsWsChar).reverse.dropWhile jsWsChar).reverse

/-- `value.replace(/,$/, '')`: remove one trailing comma if present. -/
def stripTrailingComma (s : List Char) : List Char :=
  match s.getLast? with
  | some ',' => s.dropLast
  | _ => s

/-- Tail test of the value regex `(?:,\s*$|$)`: the remainder after the
lazy group must be empty (`$`) or a comma followed by whitespace to the
end of the line (`,\s*$`).  The two alternatives are disjoint, so the
left-to-right alternation order of the engine needs no extra care. -/
def kvTailOk : List Char → Bool
  | [] => true
  | c :: cs => c = ',' && cs.all jsWsChar

/-- Lazy `(.+?)` against the tail test: the shortest non-empty prefix
`seg` of the input such that `kvTailOk` holds on the remainder.  This is
exactly the expansion order of the lazy quantifier. -/
def lazySeg : List Char → Option (List Char)
  | [] => none
  | c :: cs => if kvTailOk cs then some [c] else (lazySeg cs).map (c :: ·)

/-- The `\s*(.+?)(?:,\s*$|$)` part of `keyValuePattern`, applied to the
text after the colon.  The greedy `\s*` first consumes the maximal
whitespace prefix; if the lazy group then has no character left (the
remainder after the colon is all whitespace but non-empty), the engine
backtracks `\s*` by one and the group captures the final whitespace
character. -/
def kvValueGroup (r : List Char) : Option (List Char) :=
  let w := (r.takeWhile jsWsChar).length
  match lazySeg (r.drop w) with
  | some seg => some seg
  | none =>
    match r.getLast? with
    | some c => some [c]
    | none => none

/-- Leftmost match of `keyValuePattern = /"([^"]+)"\s*:\s*(.+?)(?:,\s*$|$)/`
on a document line: scan start positions left to right; at a start the
pattern needs a quote, a non-empty run of non-quote characters, a
closing quote, optional whitespace, a colon, and a successful value
group.  Returns the two capture groups. -/
def kvScan : List Char → Option (List Char × List Char)
  | [] => none
  | '"' :: rest =>
    let content := rest.takeWhile (· ≠ '"')
    (match rest.drop content.length with
     | '"' :: afterQ =>
       if content.isEmpty then kvScan rest
       else
         match afterQ.dropWhile jsWsChar with
         | ':' :: r =>
           match kvValueGroup r with
           | some seg => some (content, seg)
           | none => kvScan rest
         | _ => kvScan rest
     | _ => kvScan rest)
  | _ :: rest => kvScan rest

/-- Leftmost match of `keyOnlyPattern = /"([^"]+)"/`: the first quoted
non-empty token on the line. -/
def keyOnlyScan : List Char → Option (List Char)
  | [] => none
  | '"' :: rest =>
    let content := rest.takeWhile (· ≠ '"')
    (match rest.drop content.length with
     | '"' :: _ =>
       if content.isEmpty then keyOnlyScan rest else some content
     | _ => keyOnlyScan rest)
  | _ :: rest => keyOnlyScan rest

/-- Line-local extraction of `getPropertyAtPosition`: the pair
`(keyFromLine, valueFromLine)` computed from the current line text
(source lines 1631-1646 of the full revision).  On a key-value match the
value is `kvMatch[2].trim().replace(/,$/, '')`; on a key-only match it
is the sentinel `'unknown'`. -/
def lineLocal (line : String) : Option String × Option String :=
  match kvScan line.data with
  | some (k, seg) =>
    (some (String.mk k), some (String.mk (stripTrailingComma (jsTrim seg))))
  | none =>
    match keyOnlyScan line.data with
    | some k => (some (String.mk k), some "unknown")
    | none => (none, none)

/-- JavaScript `x || 'unknown'` on the line value: `none` (undefined)
and the empty string (falsy) both fall back to the sentinel. -/
def orUnknown : Option String → String
  | some s => if s = "" then "unknown" else s
  | none => "unknown"

mutual

/-- `text.replace(/\/\/.*$/gm, '')`: within each line, cut from the
leftmost `//` to the line end (`.` and multiline `$` stop at line
terminators, which stay in place). -/
def stripLineList : List Char → List Char
  | [] => []
  | '/' :: '/' :: rest => skipToEol rest
  | c :: rest => c :: stripLineList rest

/-- Skip the remainder of a commented-out line, resuming at the next
line terminator. -/
def skipToEol : List Char → List Char
  | [] => []
  | '\n' :: rest => '\n' :: stripLineList rest
  | '\r' :: rest => '\r' :: stripLineList rest
  | _ :: rest => skipToEol rest

end

/-- `text.replace(/\/\/.*$/gm, '')`. -/
def stripLineComments (text : String) : String :=
  String.mk (stripLineList text.data)

/-- Remainder of the input after the first `*/`, if any (the lazy
`[\s\S]*?` stops at the nearest closer). -/
def afterBlockClose : List Char → Option (List Char)
  | [] => none
  | '*' :: '/' :: rest => some rest
  | _ :: rest => afterBlockClose rest

/-- `text.replace(/\/\*[\s\S]*?\*\//g, '')`: repeatedly delete from a
`/*` to the nearest following `*/`; a `/*` with no closer stays (the
regex has no match there).  Fuel-indexed; the fuel never runs out when
it starts at the input length. -/
def stripBlockAux : Nat → List Char → List Char
  | 0, s => s
  | _ + 1, [] => []
  | fuel + 1, '/' :: '*' :: rest =>
    (match afterBlockClose rest with
     | some rem => stripBlockAux fuel rem
     | none => '/' :: '*' :: stripBlockAux fuel rest)
  | fuel + 1, c :: rest => c :: stripBlockAux fuel rest

/-- `text.replace(/\/\*[\s\S]*?\*\//g, '')`. -/
def stripBlockComments (text : String) : String :=
  String.mk (stripBlockAux text.data.length text.data)

/-- Values produced by `JSON.parse`.  Numbers are carried as their
source lexemes: none of the verified claims depends on float
canonicalisation, and every number reaching a theorem below does so
verbatim. -/
inductive Json where
  | jnull
  | jbool (b : Bool)
  | jnum (lexeme : String)
  | jstr (s : String)
  | jarr (elements : List Json)
  | jobj (fields : List (String × Json))

open Json

/-- JSON whitespace (`ws` in RFC 8259): space, tab, newline, return. -/
def jsonWsChar (c : Char) : Bool :=
  c = ' ' || c = '\t' || c = '\n' || c = '\r'

/-- Hexadecimal digit value, for `\uXXXX` escapes (by code point:
48-57 are `0`-`9`, 97-102 are `a`-`f`, 65-70 are `A`-`F`). -/
def hexVal (c : Char) : Option Nat :=
  let n := c.toNat
  if 48 ≤ n && n ≤ 57 then some (n - 48)
  else if 97 ≤ n && n ≤ 102 then some (n - 87)
  else if 65 ≤ n && n ≤ 70 then some (n - 55)
  else none

/-- Body of a JSON string after the opening quote: decoded content and
the remainder after the closing quote.  Strict per `JSON.parse`:
unescaped control characters and unknown escapes are errors.  (Lone
UTF-16 surrogates from `\u` escapes are collapsed by `Char.ofNat`; no
claim exercises them.) -/
def parseStringBody : List Char → Option (List Char × List Char)
  | [] => none
  | '"' :: rest => some ([], rest)
  | '\\' :: 'u' :: h1 :: h2 :: h3 :: h4 :: rest =>
    (match hexVal h1, hexVal h2, hexVal h3, hexVal h4 with
     | some a, some b, some c, some d =>
       (parseStringBody rest).map
         (fun p => (Char.ofNat (((a * 16 + b) * 16 + c) * 16 + d) :: p.1, p.2))
     | _, _, _, _ => none)
  | '\\' :: e :: rest =>
    (match
       (if e = '"' then some '"'
        else if e = '\\' then some '\\'
        else if e = '/' then some '/'
        else if e = 'b' then some '\x08'
        else if e = 'f' then some '\x0c'
        else if e = 'n' then some '\n'
        else if e = 'r' then some '\r'
        else if e = 't' then some '\t'
        else none) with
     | some c => (parseStringBody rest).map (fun p => (c :: p.1, p.2))
     | none => none)
  | c :: rest =>
    if c.toNat < 0x20 then none
    else (parseStringBody rest).map (fun p => (c :: p.1, p.2))

/-- Decimal digit test. -/
def isDigitCh (c : Char) : Bool := '0' ≤ c && c ≤ '9'

/-- Lex a JSON number (`-? int frac? exp?`), returning the lexeme and
the remainder. -/
def lexNumber (s : List Char) : Option (List Char × List Char) :=
  let (neg, s1) := match s with
    | '-' :: r => (['-'], r)
    | _ => (([] : List Char), s)
  match s1 with
  | [] => none
  | c :: _ =>
    if !isDigitCh c then none
    else
      let intPart := s1.takeWhile isDigitCh
      if intPart.length > 1 && intPart.head? = some '0' then none
      else
        let s2 := s1.drop intPart.length
        let fracStep : Option (List Char × List Char) := match s2 with
          | '.' :: r =>
            let ds := r.takeWhile isDigitCh
            if ds.isEmpty then none else some ('.' :: ds, r.drop ds.length)
          | _ => some ([], s2)
        match fracStep with
        | none => none
        | some (fracPart, s3) =>
          match s3 with
          | e :: r =>
            if e = 'e' || e = 'E' then
              let (sgn, r2) := match r with
                | '+' :: r' => (['+'], r')
                | '-' :: r' => (['-'], r')
                | _ => (([] : List Char), r)
              let ds := r2.takeWhile isDigitCh
              if ds.isEmpty then none
              else
                some (neg ++ intPart ++ fracPart ++ e :: sgn ++ ds,
                  r2.drop ds.length)
            else some (neg ++ intPart ++ fracPart, s3)
          | [] => some (neg ++ intPart ++ fracPart, [])

/-- Insertion of an object member as JavaScript object literals /
`JSON.parse` do it: a duplicate key keeps its original position but
takes the latest value; a new key is appended. -/
def insertField : List (String × Json) → String → Json → List (String × Json)
  | [], k, v => [(k, v)]
  | (k', v') :: rest, k, v =>
    if k' = k then (k', v) :: rest else (k', v') :: insertField rest k v

mutual

/-- Fuel-indexed recursive-descent parser for one JSON value (called
with leading whitespace already skipped); returns the value and the
unconsumed remainder. -/
def parseValue : Nat → List Char → Option (Json × List Char)
  | 0, _ => none
  | fuel + 1, s =>
    match s with
    | 'n' :: 'u' :: 'l' :: 'l' :: rest => some (jnull, rest)
    | 't' :: 'r' :: 'u' :: 'e' :: rest => some (jbool true, rest)
    | 'f' :: 'a' :: 'l' :: 's' :: 'e' :: rest => some (jbool false, rest)
    | '"' :: rest =>
      (parseStringBody rest).map (fun p => (jstr (String.mk p.1), p.2))
    | '[' :: rest =>
      let r1 := rest.dropWhile jsonWsChar
      (match r1 with
       | ']' :: r2 => some (jarr [], r2)
       | _ => parseElems fuel r1 [])
    | '\x7b' :: rest =>
      let r1 := rest.dropWhile jsonWsChar
      (match r1 with
       | '\x7d' :: r2 => some (jobj [], r2)
       | _ => parseFields fuel r1 [])
    | _ => (lexNumber s).map (fun p => (jnum (String.mk p.1), p.2))

/-- Elements of a non-empty JSON array, accumulating left to right. -/
def parseElems : Nat → List Char → List Json → Option (Json × List Char)
  | 0, _, _ => none
  | fuel + 1, s, acc =>
    match parseValue fuel s with
    | none => none
    | some (v, rest) =>
      match rest.dropWhile jsonWsChar with
      | ',' :: r2 => parseElems fuel (r2.dropWhile jsonWsChar) (acc ++ [v])
      | ']' :: r2 => some (jarr (acc ++ [v]), r2)
      | _ => none

/-- Members of a non-empty JSON object, accumulating left to right with
last-value-wins duplicate handling. -/
def parseFields :
    Nat → List Char → List (String × Json) → Option (Json × List Char)
  | 0, _, _ => none
  | fuel + 1, s, acc =>
    match s with
    | '"' :: rest =>
      (match parseStringBody rest with
       | none => none
       | some (kcs, r1) =>
         match r1.dropWhile jsonWsChar with
         | ':' :: r3 =>
           (match parseValue fuel (r3.dropWhile jsonWsChar) with
            | none => none
            | some (v, r4) =>
              let acc' := insertField acc (String.mk kcs) v
              match r4.dropWhile jsonWsChar with
              | ',' :: r6 => parseFields fuel (r6.dropWhile jsonWsChar) acc'
              | '\x7d' :: r6 => some (jobj acc', r6)
              | _ => none)
         | _ => none)
    | _ => none

end

/-- `JSON.parse`: a single value with only whitespace around it.  `none`
models a thrown `SyntaxError`.  The fuel bound suffices because every
two nested calls consume at least one character. -/
def jsonParse (text : String) : Option Json :=
  let cs := text.data.dropWhile jsonWsChar
  match parseValue (2 * cs.length + 2) cs with
  | some (v, rest) =>
    if (rest.dropWhile jsonWsChar).isEmpty then some v else none
  | none => none

/-- A JSON number lexeme denotes zero exactly when its mantissa digits
are all `0` (sign and exponent cannot change that). -/
def numLexIsZero (lex : String) : Bool :=
  let m := (lex.data.filter (· ≠ '-')).takeWhile (fun c => c ≠ 'e' && c ≠ 'E')
  (m.filter (· ≠ '.')).all (· = '0')

/-- JavaScript truthiness of a parsed JSON value. -/
def jsTruthy : Json → Bool
  | jnull => false
  | jbool b => b
  | jnum lex => !numLexIsZero lex
  | jstr s => s ≠ ""
  | jarr _ => true
  | jobj _ => true

/-- A canonical array-index property name (`"0"`, `"1"`, ...): digits
only, no leading zero. -/
def canonIndex (k : String) : Option Nat :=
  if k.data ≠ [] && k.data.all isDigitCh &&
      (k = "0" || k.data.head? ≠ some '0') then
    some (k.data.foldl (fun n c => n * 10 + (c.toNat - '0'.toNat)) 0)
  else none

/-- `value.hasOwnProperty(key)` on a parsed JSON value (primitives are
boxed; arrays and strings own their index properties and `length`). -/
def jsHasOwn : Json → String → Bool
  | jobj fs, k => fs.any (·.1 = k)
  | jarr xs, k =>
    k = "length" || (match canonIndex k with
      | some i => i < xs.length
      | none => false)
  | jstr s, k =>
    k = "length" || (match canonIndex k with
      | some i => i < s.length
      | none => false)
  | _, _ => false

/-- `value[key]` for a key the value owns (`jnull` models `undefined`
for the unreachable miss case). -/
def jsGetD : Json → String → Json
  | jobj fs, k => ((fs.find? (·.1 = k)).map (·.2)).getD jnull
  | jarr xs, k =>
    if k = "length" then jnum (toString xs.length)
    else (match canonIndex k with
      | some i => xs.getD i jnull
      | none => jnull)
  | jstr s, k =>
    if k = "length" then jnum (toString s.length)
    else (match canonIndex k with
      | some i => jstr (String.mk ((s.data.drop i).take 1))
      | none => jnull)
  | _, _ => jnull

/-- `value.key` member access: `none` models `undefined` (absent member
or non-object receiver without such a boxed property). -/
def jsGetMember (v : Json) (k : String) : Option Json :=
  if jsHasOwn v k then some (jsGetD v k) else none

/-- Ascending insertion of a numbered key (property keys are unique, so
no tie order matters). -/
def insertAscKey (p : Nat × String) : List (Nat × String) → List (Nat × String)
  | [] => [p]
  | q :: rest => if p.1 < q.1 then p :: q :: rest else q :: insertAscKey p rest

/-- Insertion sort by the numeric value of integer-like keys. -/
def sortAscKeys : List (Nat × String) → List (Nat × String)
  | [] => []
  | p :: rest => insertAscKey p (sortAscKeys rest)

/-- `Object.keys` of a parsed JSON value, in JavaScript's own-property
order: integer-like keys first in ascending numeric order, then the
remaining string keys in insertion order (boxed arrays and strings
expose their index keys; other primitives none.  The 2^32-2 bound on
array indices is ignored: no claim exercises keys that large). -/
def objKeys : Json → List String
  | jobj fs =>
    let ks := fs.map (·.1)
    let idxKeys := ks.filterMap (fun k => (canonIndex k).map (fun n => (n, k)))
    let strKeys := ks.filter (fun k => (canonIndex k).isNone)
    (sortAscKeys idxKeys).map (·.2) ++ strKeys
  | jarr xs => (List.range xs.length).map toString
  | jstr s => (List.range s.length).map toString
  | _ => []

/-- Lower-case hexadecimal digit. -/
def hexDigit (n : Nat) : Char :=
  if n < 10 then Char.ofNat ('0'.toNat + n) else Char.ofNat ('a'.toNat + n - 10)

/-- `JSON.stringify` escaping of one string character. -/
def escChar (c : Char) : List Char :=
  if c = '"' then ['\\', '"']
  else if c = '\\' then ['\\', '\\']
  else if c = '\x08' then ['\\', 'b']
  else if c = '\x0c' then ['\\', 'f']
  else if c = '\n' then ['\\', 'n']
  else if c = '\r' then ['\\', 'r']
  else if c = '\t' then ['\\', 't']
  else if c.toNat < 0x20 then
    ['\\', 'u', '0', '0', hexDigit (c.toNat / 16), hexDigit (c.toNat % 16)]
  else [c]

/-- `JSON.stringify` of a string: quoted and escaped. -/
def stringifyStr (s : String) : String :=
  String.mk ('"' :: (s.data.map escChar).flatten ++ ['"'])

mutual

/-- `JSON.stringify(value)` (no replacer, no indent).  Number lexemes
are emitted verbatim, matching the parser-side modelling. -/
def jsonStringify : Json → String
  | jnull => "null"
  | jbool true => "true"
  | jbool false => "false"
  | jnum lex => lex
  | jstr s => stringifyStr s
  | jarr xs => "[" ++ String.intercalate "," (stringifyElems xs) ++ "]"
  | jobj fs => "\x7b" ++ String.intercalate "," (stringifyMembers fs) ++ "\x7d"

/-- Serialized array elements, in order. -/
def stringifyElems : List Json → List String
  | [] => []
  | v :: vs => jsonStringify v :: stringifyElems vs

/-- Serialized object members, in order. -/
def stringifyMembers : List (String × Json) → List String
  | [] => []
  | (k, v) :: fs => (stringifyStr k ++ ":" ++ jsonStringify v) :: stringifyMembers fs

end

/-- The value rendering of `getPropertyAtPosition`:
`typeof value === 'string' ? `"${value}"` : JSON.stringify(value)` —
strings are wrapped in quotes by a template literal (without
re-escaping, exactly as the source does), everything else goes through
`JSON.stringify`. -/
def serializeVal : Json → String
  | jstr s => "\"" ++ s ++ "\""
  | v => jsonStringify v

/-- The result of positional resolution (`{ key, value }` in the
source; the spec calls the value `rawValueText`). -/
structure ResolvedProperty where
  key : String
  value : String
deriving DecidableEq, Repr

/-- `typeof config === 'object'` for a parsed JSON value (`null` and
arrays also have `typeof` `'object'`). -/
def jsIsObjectType : Json → Bool
  | jnull => true
  | jarr _ => true
  | jobj _ => true
  | _ => false

/-- The collection scan of the enrichment block: the value of `key`
from the first element satisfying
`config && typeof config === 'object' && config.hasOwnProperty(key)`. -/
def findOwn : List Json → String → Option Json
  | [], _ => none
  | c :: cs, k =>
    if jsTruthy c && jsIsObjectType c && jsHasOwn c k then some (jsGetD c k)
    else findOwn cs k

/-- The `if (jsonObject && keyFromLine)` block of the full-revision
`getPropertyAtPosition` (source lines 1665-1699): top-level property
first, then the `configurations` array, then the `tasks` array, else
the line value with the `|| 'unknown'` fallback.  (In the shipped code
this block is unreachable: the function has already returned whenever
`keyFromLine` is non-null.) -/
def enrichFound (jsonObject : Json) (keyFromLine : String)
    (valueFromLine : Option String) : Option ResolvedProperty :=
  if jsHasOwn jsonObject keyFromLine then
    some ⟨keyFromLine, serializeVal (jsGetD jsonObject keyFromLine)⟩
  else
    match (match jsGetMember jsonObject "configurations" with
           | some (jarr configs) => findOwn configs keyFromLine
           | _ => none) with
    | some v => some ⟨keyFromLine, serializeVal v⟩
    | none =>
      match (match jsGetMember jsonObject "tasks" with
             | some (jarr tasks) => findOwn tasks keyFromLine
             | _ => none) with
      | some v => some ⟨keyFromLine, serializeVal v⟩
      | none => some ⟨keyFromLine, orUnknown valueFromLine⟩

/-- `getPropertyAtPosition` of the full revision (source lines
1615-1716).  The document is its list of lines (`document.getText()`
joins them with a newline, `document.lineAt(position.line).text` picks
one).  Control flow mirrors the source: line-local extraction returns
immediately when it finds a key; otherwise the whole document is parsed
after comment stripping, and on success the first top-level key/value
pair is returned (`if (firstKey)` also rejects an empty-string first
key, it is falsy). -/
def getPropertyAtPosition (docLines : List String) (line : Nat) :
    Option ResolvedProperty :=
  let text := String.intercalate "\n" docLines
  let cleanText := stripBlockComments (stripLineComments text)
  let currentLineText := docLines.getD line ""
  let kv := lineLocal currentLineText
  let keyFromLine := kv.1
  let valueFromLine := kv.2
  match keyFromLine with
  | some k => some ⟨k, orUnknown valueFromLine⟩
  | none =>
    match jsonParse cleanText with
    | none => none
    | some jsonObject =>
      match jsTruthy jsonObject, keyFromLine with
      | true, some k => enrichFound jsonObject k valueFromLine
      | true, none =>
        (match objKeys jsonObject with
         | [] => none
         | firstKey :: _ =>
           if firstKey = "" then none
           else some ⟨firstKey, serializeVal (jsGetD jsonObject firstKey)⟩)
      | false, _ => none

/-- The current-revision (`src/extension.ts`, lines 320-344)
`getPropertyAtPosition`: line-local only, no trailing-comma strip, and
the key-only sentinel is the string `'undefined'`. -/
def getPropertyAtPositionCurrent (docLines : List String) (line : Nat) :
    Option ResolvedProperty :=
  let currentLineText := docLines.getD line ""
  match kvScan currentLineText.data with
  | some (k, seg) => some ⟨String.mk k, String.mk (jsTrim seg)⟩
  | none =>
    match keyOnlyScan currentLineText.data with
    | some k => some ⟨String.mk k, "undefined"⟩
    | none => none

/-- Follows the specification's words, for comparison with the code
(spec §4.2 step 2, "structural enrichment"): when the whole document
parses and step 1 produced key `k` with line value `v`, the enriched
result takes (a) the re-serialized top-level value of `k`, else (b) the
value of `k` from the first element of the `configurations` or `tasks`
collection that owns it, else (c) keeps the line-local value. -/
def specEnrich (j : Json) (k : String) (v : String) : ResolvedProperty :=
  if jsHasOwn j k then ⟨k, serializeVal (jsGetD j k)⟩
  else
    match (match jsGetMember j "configurations" with
           | some (jarr cs) => findOwn cs k
           | _ => none) with
    | some w => ⟨k, serializeVal w⟩
    | none =>
      match (match jsGetMember j "tasks" with
             | some (jarr ts) => findOwn ts k
             | _ => none) with
      | some w => ⟨k, serializeVal w⟩
      | none => ⟨k, v⟩

/-- One entry of the configuration documentation database (the return
shape of `getConfigDocumentation`; the spec's `DocumentationEntry` with
`valueType` for `type` and `defaultValue` for `default`). -/
structure DocEntry where
  description : String
  type : String
  defaultValue : Option String := none
  enum : Option (List String) := none
  enumDescriptions : Option (List (String × String)) := none
deriving DecidableEq, Repr

/-- The `configDocs` object literal of `src/extension.ts` (lines
35-301), in declaration order. -/
def configDocs : List (String × DocEntry) := [
  ("editor.tabSize",
   { description := "The number of spaces a tab is equal to. This setting is overridden based on the file contents when editor.detectIndentation is true.",
     type := "number", defaultValue := some "4" }),
  ("editor.insertSpaces",
   { description := "Insert spaces when pressing Tab. This setting is overridden based on the file contents when editor.detectIndentation is true.",
     type := "boolean", defaultValue := some "true" }),
  ("editor.fontSize",
   { description := "Controls the font size in pixels.",
     type := "number", defaultValue := some "14" }),
  ("editor.fontFamily",
   { description := "Controls the font family.",
     type := "string", defaultValue := some "Consolas, \"Courier New\", monospace" }),
  ("editor.fontWeight",
   { description := "Controls the font weight. Accepts normal and bold keywords or numbers between 1 and 1000.",
     type := "string|number", defaultValue := some "normal",
     enum := some ["normal", "bold", "100", "200", "300", "400", "500",
       "600", "700", "800", "900"],
     enumDescriptions := some [
       ("normal", "Normal font weight (equivalent to 400)"),
       ("bold", "Bold font weight (equivalent to 700)"),
       ("100", "Thin"), ("200", "Extra Light"), ("300", "Light"),
       ("400", "Normal"), ("500", "Medium"), ("600", "Semi Bold"),
       ("700", "Bold"), ("800", "Extra Bold"), ("900", "Black")] }),
  ("editor.wordWrap",
   { description := "Controls how lines should wrap.",
     type := "string", defaultValue := some "off",
     enum := some ["off", "on", "wordWrapColumn", "bounded"],
     enumDescriptions := some [
       ("off", "Lines will never wrap"),
       ("on", "Lines will wrap at the viewport width"),
       ("wordWrapColumn", "Lines will wrap at editor.wordWrapColumn"),
       ("bounded", "Lines will wrap at min(viewport, editor.wordWrapColumn)")] }),
  ("editor.lineNumbers",
   { description := "Controls the display of line numbers.",
     type := "string", defaultValue := some "on",
     enum := some ["off", "on", "relative", "interval"],
     enumDescriptions := some [
       ("off", "Line numbers are not rendered"),
       ("on", "Line numbers are rendered as absolute number"),
       ("relative", "Line numbers are rendered as distance to cursor line"),
       ("interval", "Line numbers are rendered every 10 lines")] }),
  ("editor.minimap.enabled",
   { description := "Controls whether the minimap is shown.",
     type := "boolean", defaultValue := some "true" }),
  ("editor.formatOnSave",
   { description := "Format a file on save. A formatter must be available.",
     type := "boolean", defaultValue := some "false" }),
  ("editor.formatOnPaste",
   { description := "Format the line after typing. Requires a formatter to be available.",
     type := "boolean", defaultValue := some "false" }),
  ("editor.bracketPairColorization.enabled",
   { description := "Controls whether bracket pair colorization is enabled or not.",
     type := "boolean", defaultValue := some "true" }),
  ("files.autoSave",
   { description := "Controls auto save of dirty editors.",
     type := "string", defaultValue := some "off",
     enum := some ["off", "afterDelay", "onFocusChange", "onWindowChange"],
     enumDescriptions := some [
       ("off", "An editor with changes is never automatically saved"),
       ("afterDelay", "An editor with changes is automatically saved after the configured files.autoSaveDelay"),
       ("onFocusChange", "An editor with changes is automatically saved when the editor loses focus"),
       ("onWindowChange", "An editor with changes is automatically saved when the window loses focus")] }),
  ("files.autoSaveDelay",
   { description := "Controls the delay in ms after which a dirty editor is saved automatically.",
     type := "number", defaultValue := some "1000" }),
  ("files.exclude",
   { description := "Configure glob patterns for excluding files and folders.",
     type := "object", defaultValue := some "\x7b\x7d" }),
  ("files.trimTrailingWhitespace",
   { description := "When enabled, will trim trailing whitespace when saving a file.",
     type := "boolean", defaultValue := some "false" }),
  ("workbench.colorTheme",
   { description := "Specifies the color theme used in the workbench.",
     type := "string", defaultValue := some "Default Dark+" }),
  ("workbench.iconTheme",
   { description := "Specifies the icon theme used in the workbench.",
     type := "string", defaultValue := some "vs-seti" }),
  ("workbench.startupEditor",
   { description := "Controls which editor is shown at startup.",
     type := "string", defaultValue := some "welcomePage",
     enum := some ["none", "welcomePage", "readme", "newUntitledFile",
       "welcomePageInEmptyWorkbench"],
     enumDescriptions := some [
       ("none", "Start without an editor"),
       ("welcomePage", "Open the Welcome page"),
       ("readme", "Open the README when opening a folder that contains one"),
       ("newUntitledFile", "Open a new untitled file"),
       ("welcomePageInEmptyWorkbench", "Open the Welcome page when opening an empty workbench")] }),
  ("workbench.editor.enablePreview",
   { description := "Controls whether opened editors show as preview editors.",
     type := "boolean", defaultValue := some "true" }),
  ("workbench.activityBar.visible",
   { description := "Controls the visibility of the activity bar in the workbench.",
     type := "boolean", defaultValue := some "true" }),
  ("terminal.integrated.fontSize",
   { description := "Controls the font size in pixels of the terminal.",
     type := "number", defaultValue := some "14" }),
  ("git.enabled",
   { description := "Whether git is enabled.",
     type := "boolean", defaultValue := some "true" }),
  ("git.autofetch",
   { description := "Whether auto fetching is enabled.",
     type := "boolean", defaultValue := some "false" }),
  ("name",
   { description := "Name of the configuration; appears in the launch configuration dropdown menu.",
     type := "string", defaultValue := some "Launch Program" }),
  ("type",
   { description := "Type of configuration launcher to use.",
     type := "string", defaultValue := some "node",
     enum := some ["node", "chrome", "extensionHost", "python", "go",
       "java", "php", "ruby", "lldb", "cppdbg", "coreclr"],
     enumDescriptions := some [
       ("node", "For debugging Node.js applications"),
       ("chrome", "For debugging web applications in Chrome"),
       ("extensionHost", "For debugging VS Code extensions"),
       ("python", "For debugging Python applications"),
       ("go", "For debugging Go applications"),
       ("java", "For debugging Java applications"),
       ("php", "For debugging PHP applications"),
       ("ruby", "For debugging Ruby applications"),
       ("lldb", "For debugging C/C++/Objective-C applications with LLDB"),
       ("cppdbg", "For debugging C/C++ applications with GDB/LLDB"),
       ("coreclr", "For debugging .NET Core applications")] }),
  ("request",
   { description := "Request type of the configuration.",
     type := "string", defaultValue := some "launch",
     enum := some ["launch", "attach"],
     enumDescriptions := some [
       ("launch", "Launch a new instance of the program"),
       ("attach", "Attach to an already running instance")] }),
  ("program",
   { description := "Absolute path to the program.",
     type := "string", defaultValue := some "$\x7bworkspaceFolder\x7d/app.js" }),
  ("args",
   { description := "Command line arguments passed to the program.",
     type := "array", defaultValue := some "[]" }),
  ("cwd",
   { description := "Absolute path to the working directory of the program being debugged.",
     type := "string", defaultValue := some "$\x7bworkspaceFolder\x7d" }),
  ("env",
   { description := "Environment variables passed to the program.",
     type := "object", defaultValue := some "\x7b\x7d" }),
  ("console",
   { description := "Where to launch the debug target.",
     type := "string", defaultValue := some "integratedTerminal",
     enum := some ["internalConsole", "integratedTerminal", "externalTerminal"],
     enumDescriptions := some [
       ("internalConsole", "VS Code Debug Console"),
       ("integratedTerminal", "VS Code\x27s integrated terminal"),
       ("externalTerminal", "External terminal")] }),
  ("port",
   { description := "Debug port to attach to.",
     type := "number", defaultValue := some "9229" }),
  ("skipFiles",
   { description := "An array of glob patterns to skip when debugging.",
     type := "array", defaultValue := some "[]" }),
  ("stopOnEntry",
   { description := "Automatically stop after launch.",
     type := "boolean", defaultValue := some "false" }),
  ("sourceMaps",
   { description := "Use JavaScript source maps (if they exist).",
     type := "boolean", defaultValue := some "true" }),
  ("version",
   { description := "Version of the debug configuration format.",
     type := "string", defaultValue := some "0.2.0" }),
  ("configurations",
   { description := "List of configurations. Each configuration is a separate debug session.",
     type := "array", defaultValue := some "[]" }),
  ("recommendations",
   { description := "List of extensions recommended for users of this workspace.",
     type := "array", defaultValue := some "[]" }),
  ("unwantedRecommendations",
   { description := "List of extensions not recommended for users of this workspace.",
     type := "array", defaultValue := some "[]" })]

/-- The fixed sentinel entry returned for names absent from the
database. -/
def sentinelEntry : DocEntry :=
  { description := "No documentation available for this configuration.",
    type := "unknown" }

/-- The own property keys of `Object.prototype`, which every object
literal inherits: a property read on `configDocs` that misses every
stored key still finds these (each bound to a function, or for
`__proto__` an object — all truthy). -/
def objectProtoMembers : List String :=
  ["constructor", "hasOwnProperty", "isPrototypeOf", "propertyIsEnumerable",
   "toLocaleString", "toString", "valueOf", "__proto__", "__defineGetter__",
   "__defineSetter__", "__lookupGetter__", "__lookupSetter__"]

/-- The runtime value a catalog lookup can produce.  The TypeScript
annotation promises a documentation-entry shape, but the `as any` cast
lets the property read `(configDocs as any)[key]` also surface an
inherited `Object.prototype` member; `protoMember` records that case
(the member is truthy, so the `||` fallback does not replace it). -/
inductive LookupResult where
  | entry (e : DocEntry)
  | protoMember (name : String)
deriving DecidableEq, Repr

/-- `getConfigDocumentation(key)`, i.e.
`(configDocs as any)[key] || sentinel`: a JavaScript property read
walks the prototype chain — an own (stored) key returns its exact
entry, an absent key naming an `Object.prototype` member returns that
inherited truthy member, and only a fully absent key is `undefined`
(falsy), making the `||` produce the sentinel. -/
def getConfigDocumentation (key : String) : LookupResult :=
  match configDocs.find? (·.1 = key) with
  | some p => LookupResult.entry p.2
  | none =>
    if objectProtoMembers.contains key then LookupResult.protoMember key
    else LookupResult.entry sentinelEntry

/-- Split a character list at `/` separators (empty segments kept). -/
def splitOnSlash : List Char → List (List Char)
  | [] => [[]]
  | c :: rest =>
    if c = '/' then [] :: splitOnSlash rest
    else
      match splitOnSlash rest with
      | seg :: segs => (c :: seg) :: segs
      | [] => [[c]]

/-- Node's `path.basename` for POSIX paths: the last non-empty path
segment (trailing separators ignored); the root path keeps its
separator. -/
def pathBaseName (p : String) : String :=
  match ((splitOnSlash p.data).filter (· ≠ [])).getLast? with
  | some seg => String.mk seg
  | none => if p.data.any (· = '/') then "/" else ""

/-- `a.isPrefixOf b` on character lists. -/
def listIsPrefix : List Char → List Char → Bool
  | [], _ => true
  | _ :: _, [] => false
  | a :: as, b :: bs => a = b && listIsPrefix as bs

/-- JavaScript `hay.includes(needle)`: substring containment. -/
def containsSub (needle : List Char) : List Char → Bool
  | [] => listIsPrefix needle []
  | c :: rest => listIsPrefix needle (c :: rest) || containsSub needle rest

/-- `isConfigFile` (`src/extension.ts` lines 312-317, identical in the
full revision): exact basename membership in the fixed list, and a
substring test `filePath.includes('.vscode')` for the directory
condition. -/
def isConfigFile (filePath : String) : Bool :=
  let configFileNames := ["settings.json", "launch.json", "extensions.json"]
  let fileName := pathBaseName filePath
  let isInVscodeDir := containsSub ".vscode".data filePath.data
  isInVscodeDir && configFileNames.contains fileName

/-- Follows the specification's words ("residency inside a fixed
well-known configuration subdirectory"): some ancestor directory
segment of the path is exactly `.vscode`. -/
def residesInVscodeDir (filePath : String) : Bool :=
  ((splitOnSlash filePath.data).dropLast).any (· = ".vscode".data)

/-- The `ProjectType` interface of `src/extension.ts`.  `confidence` is
a rational: every value the analyzer can produce is `(d / t) * 100`
with `t ∈ {4, 5}` and `0 ≤ d ≤ t`, and all of those double-precision
products are exact integers, so `ℚ` models the float arithmetic of the
source without error. -/
structure ProjectType where
  name : String
  detected : Bool
  files : List String
  patterns : List String
  confidence : ℚ
deriving DecidableEq, Repr

/-- The first declared signature of `ProjectAnalyzer.analyzeProject`
(lines 465-471). -/
def nodeSig : ProjectType :=
  { name := "Node.js", detected := false,
    files := ["package.json"],
    patterns := ["node_modules/", "*.js", "*.ts"], confidence := 0 }

/-- The second declared signature (lines 472-478). -/
def reactSig : ProjectType :=
  { name := "React", detected := false,
    files := ["package.json"],
    patterns := ["src/", "public/", "*.jsx", "*.tsx"], confidence := 0 }

/-- The third declared signature (lines 479-485). -/
def pythonSig : ProjectType :=
  { name := "Python", detected := false,
    files := ["requirements.txt", "setup.py", "pyproject.toml"],
    patterns := ["*.py", "__pycache__/"], confidence := 0 }

/-- The fixed signature declarations of `ProjectAnalyzer.analyzeProject`
(lines 464-486), in declaration order. -/
def projectTypesInit : List ProjectType := [nodeSig, reactSig, pythonSig]

/-- The filesystem as the analyzer observes it: an existence oracle for
`fs.existsSync` and a listing oracle for `fs.readdirSync`, where `none`
models a thrown error (caught by the `try`/`catch` of the source). -/
structure FileSystem where
  existsSync : String → Bool
  readdirSync : String → Option (List String)

/-- `path.join(workspacePath, file)` for the analyzer's use (a
directory joined with a plain relative file name). -/
def pathJoin (dir file : String) : String := dir ++ "/" ++ file

/-- One token of the regexes the analyzer builds: `.` or a literal
character, each optionally starred.  The only regex sources reaching
the matcher are the fixed patterns with their first `*` replaced by
`.*`, e.g. `.*.py`. -/
inductive RTok where
  | dot
  | lit (c : Char)
deriving DecidableEq, Repr

/-- The atom denoted by one regex-source character. -/
def regexAtom (c : Char) : RTok :=
  if c = '.' then RTok.dot else RTok.lit c

/-- Token list of a regex source: a character becomes an atom, a
following `*` stars it. -/
def regexToks : List Char → List (RTok × Bool)
  | [] => []
  | c :: '*' :: rest => (regexAtom c, true) :: regexToks rest
  | c :: rest => (regexAtom c, false) :: regexToks rest

/-- Does one token accept one character. -/
def tokMatch : RTok → Char → Bool
  | RTok.dot, _ => true
  | RTok.lit c, c' => c = c'

/-- Fuel-indexed matcher: can the token list consume some prefix of the
input (anchored match with free right end, as an unanchored
`RegExp.test` needs at each start position).  Standard regex-star
semantics: a starred token either stops or consumes a matching
character.  Every call shrinks tokens-plus-input, so fuel above that
sum never runs out. -/
def matchHereAux : Nat → List (RTok × Bool) → List Char → Bool
  | 0, _, _ => false
  | fuel + 1, toks, s =>
    match toks with
    | [] => true
    | (t, false) :: ts =>
      (match s with
       | [] => false
       | c :: cs => tokMatch t c && matchHereAux fuel ts cs)
    | (t, true) :: ts =>
      matchHereAux fuel ts s ||
        (match s with
         | [] => false
         | c :: cs => tokMatch t c && matchHereAux fuel ((t, true) :: ts) cs)

/-- The matcher with sufficient fuel. -/
def matchHere (toks : List (RTok × Bool)) (s : List Char) : Bool :=
  matchHereAux (toks.length + s.length + 1) toks s

/-- `new RegExp(src).test(str)`: try every start position. -/
def testFrom (toks : List (RTok × Bool)) : List Char → Bool
  | [] => matchHere toks []
  | c :: rest => matchHere toks (c :: rest) || testFrom toks rest

/-- `pattern.replace('*', '.*')`: a string-valued first argument of
`String.prototype.replace` replaces only the first occurrence. -/
def replaceFirstStar : List Char → List Char
  | [] => []
  | '*' :: rest => '.' :: '*' :: rest
  | c :: rest => c :: replaceFirstStar rest

/-- One iteration of the pattern loop (lines 503-516): a directory
pattern matches on an entry equal to the pattern minus its trailing
separator; a wildcard pattern matches when the built regex tests true
on some entry; other patterns never count. -/
def patternHit (files : List String) (pattern : String) : Bool :=
  if pattern.data.getLast? = some '/' then
    files.any (fun f => f = String.mk pattern.data.dropLast)
  else if pattern.data.any (· = '*') then
    let regex := regexToks (replaceFirstStar pattern.data)
    files.any (fun f => testFrom regex f.data)
  else false

/-- The `detectedFiles` counter of the analyzer loop (lines 492-498):
marker files of the signature whose joined path exists. -/
def matchedFiles (fs : FileSystem) (workspacePath : String)
    (t : ProjectType) : Nat :=
  (t.files.filter (fun file => fs.existsSync (pathJoin workspacePath file))).length

/-- The `detectedPatterns` counter (lines 500-519): each pattern counts
at most once over the single directory listing; a throwing
`readdirSync` leaves the counter at zero. -/
def matchedPatterns (fs : FileSystem) (workspacePath : String)
    (t : ProjectType) : Nat :=
  match fs.readdirSync workspacePath with
  | none => 0
  | some files => (t.patterns.filter (patternHit files)).length

/-- The detection threshold of line 525: `type.confidence > 30`. -/
def detectedRule (confidence : ℚ) : Bool := decide (confidence > 30)

/-- The per-signature body of the analyzer loop (lines 488-526):
`confidence = totalChecks > 0 ? (totalDetected / totalChecks) * 100 : 0`
and `detected = confidence > 30`. -/
def scoreType (fs : FileSystem) (workspacePath : String)
    (t : ProjectType) : ProjectType :=
  let totalChecks := t.files.length + t.patterns.length
  let totalDetected :=
    matchedFiles fs workspacePath t + matchedPatterns fs workspacePath t
  let confidence : ℚ :=
    if totalChecks > 0 then ((totalDetected : ℚ) / (totalChecks : ℚ)) * 100
    else 0
  { t with confidence := confidence, detected := detectedRule confidence }

/-- `ProjectAnalyzer.analyzeProject(workspacePath)`: score every
declared signature, in declaration order. -/
def analyzeProject (fs : FileSystem) (workspacePath : String) :
    List ProjectType :=
  projectTypesInit.map (scoreType fs workspacePath)

/-- The reduction of `createRecommendedSettingsCommand` (lines 711-713):
`detectedTypes.reduce((prev, current) =>
  (prev.confidence > current.confidence) ? prev : current)`. -/
def reducePrimary : ProjectType → List ProjectType → ProjectType
  | prev, [] => prev
  | prev, current :: rest =>
    reducePrimary
      (if prev.confidence > current.confidence then prev else current) rest

/-- `reduce` without an initial value, as invoked on the detected list
(`none` models the `TypeError` it would throw on an empty array; the
caller returns early when nothing was detected). -/
def selectPrimary : List ProjectType → Option ProjectType
  | [] => none
  | t :: ts => some (reducePrimary t ts)

/-- A concrete filesystem: a JavaScript-ish workspace at `/w` holding
`package.json` and entries that satisfy every Node.js and React check. -/
def exTieFS : FileSystem :=
  { existsSync := fun p => p = "/w/package.json",
    readdirSync := fun d =>
      if d = "/w" then
        some ["node_modules", "src", "public", "a.js", "a.ts", "a.jsx", "a.tsx"]
      else none }

/-- A concrete filesystem whose only listing entry is `happy`. -/
def exHappyFS : FileSystem :=
  { existsSync := fun _ => false,
    readdirSync := fun d => if d = "/w" then some ["happy"] else none }

/-- Test vector: a parsing document whose second line holds a key with
its value on the following line. -/
def exDoc : List String := ["\x7b", "\"type\":", "\"node\"", "\x7d"]

/-- Test vector: a filesystem listing nothing anywhere. -/
def deadFS : FileSystem :=
  { existsSync := fun _ => false, readdirSync := fun _ => none }

/-- Test vector: a hypothetical signature declaring no checks at all. -/
def emptySig : ProjectType :=
  { name := "Empty", detected := false, files := [], patterns := [],
    confidence := 0 }

/-- Test vector: the first declared signature as scored in a tie. -/
def tieA : ProjectType := { nodeSig with confidence := 50, detected := true }

/-- Test vector: the second declared signature as scored in a tie. -/
def tieB : ProjectType := { reactSig with confidence := 50, detected := true }

/-! ## Probe examples -/

example : stripLineComments "a // b\nc" = "a \nc" := by decide
example : stripBlockComments "a /* x */ b /* y */c" = "a  b c" := by decide
example : stripBlockComments "a /* open" = "a /* open" := by decide
example : lexNumber "12.5e+3,".data = some ("12.5e+3".data, ",".data) := by
  decide
example : lexNumber "01".data = none := by decide
example : lexNumber "-0".data = some ("-0".data, []) := by decide
example : jsonParse "\x7b\"a\": [1, true, null]\x7d" =
    some (jobj [("a", jarr [jnum "1", jbool true, jnull])]) := rfl
example : jsonParse "\x7b\"type\": \"node\",\x7d" = none := rfl
example :
    jsonParse
      "\x7b\"type\": \"node\", \"configurations\": [\x7b\"type\": \"python\"\x7d]\x7d"
      = some (jobj [("type", jstr "node"),
          ("configurations", jarr [jobj [("type", jstr "python")]])]) := rfl
example :
    getPropertyAtPosition ["\x7b", "\"type\":", "\"node\"", "\x7d"] 1 =
      some ⟨"type", "unknown"⟩ := rfl
example :
    getPropertyAtPosition ["\x7b", "  \"v\": 4,", "\x7d"] 1 =
      some ⟨"v", "4"⟩ := rfl
example :
    getPropertyAtPosition ["\x7b\"k\": [1, 2]\x7d", ""] 1 =
      some ⟨"k", "[1,2]"⟩ := rfl
example :
    getPropertyAtPosition ["\x7b\"k\": [1, 2]\x7d", "no quoted token"] 1 =
      none := rfl
example : isConfigFile "/w/.vscode/settings.json" = true := by decide
example : isConfigFile "/w/settings.json" = false := by decide
example : isConfigFile "/w/.vscode/other.json" = false := by decide
example :
    testFrom (regexToks (replaceFirstStar "*.py".data)) "happy".data = true := by
  decide
example :
    testFrom (regexToks (replaceFirstStar "*.py".data)) "nohit".data = false := by
  decide
example : patternHit ["node_modules"] "node_modules/" = true := by decide
example : detectedRule 100 = true := by decide
example : lineLocal "  \"editor.tabSize\": 4," =
    (some "editor.tabSize", some "4") := by decide
example : lineLocal "\"program\"" = (some "program", some "unknown") := by
  decide
example : lineLocal "\"type\":" = (some "type", some "unknown") := by decide
example : lineLocal "\"x\": ," = (some "x", some "") := by decide
example : lineLocal "\"a\": [1, 2]," = (some "a", some "[1, 2]") := by decide
example : lineLocal "say no quotes here" = (none, none) := by decide
example : lineLocal "\"k\": \"v\", \"k2\": \"v2\"," =
    (some "k", some "\"v\", \"k2\": \"v2\"") := by decide
example : lineLocal "\"a\"x\"b\": 7" = (some "b", some "7") := by decide
example :
    getPropertyAtPositionCurrent ["\"program\""] 0 =
      some ⟨"program", "undefined"⟩ := rfl

/-! ## Helper lemmas -/

/-- Evaluation helper: once the two counters and the check total are
computed (they are decidable Nat facts) and the rational arithmetic is
settled, `scoreType` is the record update. -/
theorem scoreType_eval (fs : FileSystem) (dir : String) (t : ProjectType)
    (df dp n : Nat) (c : ℚ)
    (hdf : matchedFiles fs dir t = df)
    (hdp : matchedPatterns fs dir t = dp)
    (hn : t.files.length + t.patterns.length = n)
    (hc : (if n > 0 then ((df : ℚ) + (dp : ℚ)) / (n : ℚ) * 100 else 0) = c) :
    scoreType fs dir t = { t with confidence := c, detected := detectedRule c } := by
  simp only [scoreType, hdf, hdp, hn, Nat.cast_add, hc]

/-- The fold of `reduce((prev, current) => prev.confidence >
current.confidence ? prev : current)` returns the LAST maximal element
of `prev :: ts`: it is at least as confident as every element, and the
elements strictly after its position are all strictly less confident
(so each tied-maximal element sits at or before it). -/
theorem reducePrimary_last_max (ts : List ProjectType) (prev : ProjectType) :
    (∀ s ∈ prev :: ts, s.confidence ≤ (reducePrimary prev ts).confidence) ∧
    ∃ l1 l2, prev :: ts = l1 ++ reducePrimary prev ts :: l2 ∧
      ∀ s ∈ l2, s.confidence < (reducePrimary prev ts).confidence := by
  induction ts generalizing prev with
  | nil =>
    refine ⟨?_, [], [], rfl, by simp⟩
    intro s hs
    rw [List.mem_singleton.mp hs]
    exact le_refl _
  | cons c rest ih =>
    by_cases h : prev.confidence > c.confidence
    · simp only [reducePrimary, if_pos h]
      obtain ⟨hmax, l1, l2, hdec, hlt⟩ := ih prev
      have hprev : prev.confidence ≤ (reducePrimary prev rest).confidence :=
        hmax _ (List.mem_cons_self _ _)
      refine ⟨?_, ?_⟩
      · intro s hs
        rcases List.mem_cons.mp hs with rfl | hs'
        · exact hprev
        rcases List.mem_cons.mp hs' with rfl | hs''
        · exact le_trans (le_of_lt h) hprev
        · exact hmax _ (List.mem_cons_of_mem _ hs'')
      · cases l1 with
        | nil =>
          simp only [List.nil_append] at hdec
          injection hdec with hr hl2
          refine ⟨[], c :: rest, ?_, ?_⟩
          · simp [← hr]
          · intro s hs
            rcases List.mem_cons.mp hs with rfl | hs'
            · rw [← hr]; exact h
            · exact hlt s (hl2 ▸ hs')
        | cons a l1' =>
          rw [List.cons_append] at hdec
          injection hdec with ha hrest
          exact ⟨prev :: c :: l1', l2,
            by rw [List.cons_append, List.cons_append, ← hrest], hlt⟩
    · simp only [reducePrimary, if_neg h]
      push_neg at h
      obtain ⟨hmax, l1, l2, hdec, hlt⟩ := ih c
      refine ⟨?_, prev :: l1, l2, ?_, hlt⟩
      · intro s hs
        rcases List.mem_cons.mp hs with rfl | hs'
        · exact le_trans h (hmax _ (List.mem_cons_self _ _))
        · exact hmax _ hs'
      · rw [List.cons_append, ← hdec]

/-- Substring containment is stable under extending the haystack on the
left. -/
theorem containsSub_cons (needle : List Char) (c : Char) (l : List Char)
    (h : containsSub needle l = true) : containsSub needle (c :: l) = true := by
  simp [containsSub, h]

/-- The first segment produced by the splitter is a prefix of the
input. -/
theorem prefix_of_head_seg :
    ∀ (l : List Char) (s0 : List Char) (ss : List (List Char)),
      splitOnSlash l = s0 :: ss → listIsPrefix s0 l = true := by
  intro l
  induction l with
  | nil =>
    intro s0 ss h
    simp only [splitOnSlash, List.cons.injEq] at h
    obtain ⟨rfl, -⟩ := h
    rfl
  | cons c rest ih =>
    intro s0 ss h
    by_cases hc : c = '/'
    · subst hc
      simp only [splitOnSlash, if_pos rfl, List.cons.injEq] at h
      obtain ⟨rfl, -⟩ := h
      rfl
    · cases hsr : splitOnSlash rest with
      | nil =>
        simp only [splitOnSlash, if_neg hc, hsr, List.cons.injEq] at h
        obtain ⟨rfl, -⟩ := h
        simp [listIsPrefix]
      | cons t0 ts =>
        simp only [splitOnSlash, if_neg hc, hsr, List.cons.injEq] at h
        obtain ⟨rfl, -⟩ := h
        simp [listIsPrefix, ih t0 ts hsr]

/-- Every segment produced by the splitter occurs contiguously in the
input. -/
theorem mem_splitOnSlash_containsSub :
    ∀ (l : List Char) (seg : List Char),
      seg ∈ splitOnSlash l → containsSub seg l = true := by
  intro l
  induction l with
  | nil =>
    intro seg h
    simp [splitOnSlash] at h
    subst h
    rfl
  | cons c rest ih =>
    intro seg h
    by_cases hc : c = '/'
    · subst hc
      have heq : splitOnSlash ('/' :: rest) = [] :: splitOnSlash rest := by
        simp [splitOnSlash]
      rw [heq] at h
      rcases List.mem_cons.mp h with h1 | h1
      · subst h1; rfl
      · exact containsSub_cons _ _ _ (ih _ h1)
    · cases hsr : splitOnSlash rest with
      | nil =>
        simp only [splitOnSlash, if_neg hc, hsr, List.mem_singleton] at h
        subst h
        have hpc : listIsPrefix [c] (c :: rest) = true := by
          simp [listIsPrefix]
        simp [containsSub, hpc]
      | cons s0 ss =>
        simp only [splitOnSlash, if_neg hc, hsr, List.mem_cons] at h
        rcases h with rfl | h
        · have hpre : listIsPrefix s0 rest = true :=
            prefix_of_head_seg rest s0 ss hsr
          simp [containsSub, listIsPrefix, hpre]
        · exact containsSub_cons _ _ _
            (ih _ (by rw [hsr]; exact List.mem_cons_of_mem _ h))

/-! ## Claims -/

/-- Claim C1, counterexample.  The claim asserts that whenever the
document parses as a whole and line-local extraction produced a key,
`getPropertyAtPosition` returns the enriched value of the declared
search order.  On the document `{ \n "type": \n "node" \n }` with the
cursor on the `"type":` line, the document parses, line-local
extraction yields key `type` with line value `unknown`, the spec's
enrichment (case (a), top-level property) prescribes the re-serialized
value `"node"` — but the function returns the line-local `unknown`,
because it returns before ever parsing.  So the claim is false as
stated. -/
theorem claim1_counterexample :
    jsonParse (stripBlockComments (stripLineComments
        (String.intercalate "\n" exDoc))) = some (jobj [("type", jstr "node")]) ∧
    lineLocal (exDoc.getD 1 "") = (some "type", some "unknown") ∧
    specEnrich (jobj [("type", jstr "node")]) "type" "unknown" =
      ⟨"type", "\"node\""⟩ ∧
    getPropertyAtPosition exDoc 1 = some ⟨"type", "unknown"⟩ ∧
    ResolvedProperty.mk "type" "unknown" ≠ ⟨"type", "\"node\""⟩ :=
  ⟨rfl, rfl, rfl, rfl, by decide⟩

/-- Claim C1, amended: whenever line-local extraction produces a key,
`getPropertyAtPosition` returns exactly the line-local result (with the
`|| 'unknown'` fallback on the value); the structural-enrichment search
is never consulted in that case, whether or not the document parses. -/
theorem claim1_enrichment (docLines : List String) (line : Nat) (k : String)
    (h : (lineLocal (docLines.getD line "")).1 = some k) :
    getPropertyAtPosition docLines line =
      some ⟨k, orUnknown (lineLocal (docLines.getD line "")).2⟩ := by
  rcases hkv : lineLocal (docLines.getD line "") with ⟨k1, v1⟩
  rw [hkv] at h
  simp only at h
  subst h
  unfold getPropertyAtPosition
  simp only [hkv]

/-- Claim C1, witness for the amended theorem at a concrete document. -/
theorem claim1_enrichment_witness :
    getPropertyAtPosition exDoc 1 =
      some ⟨"type", orUnknown (lineLocal (exDoc.getD 1 "")).2⟩ :=
  claim1_enrichment exDoc 1 "type" rfl

/-- Claim C3: on a line that does not match the key-value pattern but
contains a quoted token, the resolver returns the leftmost quoted token
as the key and the sentinel value `unknown`. -/
theorem claim3_key_only (docLines : List String) (line : Nat) (k : List Char)
    (hkv : kvScan (docLines.getD line "").data = none)
    (hko : keyOnlyScan (docLines.getD line "").data = some k) :
    getPropertyAtPosition docLines line = some ⟨String.mk k, "unknown"⟩ := by
  have hll : lineLocal (docLines.getD line "") =
      (some (String.mk k), some "unknown") := by
    unfold lineLocal
    rw [hkv, hko]
  unfold getPropertyAtPosition
  simp only [hll, orUnknown]
  rfl

/-- Claim C3, witness: the line containing only `"program"` resolves to
`{ key := "program", value := "unknown" }`. -/
theorem claim3_witness :
    kvScan "\"program\"".data = none ∧
    keyOnlyScan "\"program\"".data = some "program".data ∧
    getPropertyAtPosition ["\"program\""] 0 = some ⟨"program", "unknown"⟩ :=
  ⟨rfl, rfl, claim3_key_only ["\"program\""] 0 "program".data rfl rfl⟩

/-- Claim C4, counterexample.  The claim asserts that on every line
matching the key-value pattern the returned value is the trimmed
fragment with a trailing comma stripped.  On the line `"x": ,` the
pattern matches with captured fragment `,`; trimming and stripping
leaves the empty string, but the resolver returns the sentinel
`unknown` (the empty string is falsy, so `valueFromLine || 'unknown'`
replaces it). -/
theorem claim4_counterexample :
    kvScan "\"x\": ,".data = some ("x".data, ",".data) ∧
    String.mk (stripTrailingComma (jsTrim ",".data)) = "" ∧
    getPropertyAtPosition ["\"x\": ,"] 0 = some ⟨"x", "unknown"⟩ ∧
    ResolvedProperty.mk "x" "unknown" ≠ ⟨"x", ""⟩ :=
  ⟨rfl, rfl, rfl, by decide⟩

/-- Claim C4, amended: on a key-value match the resolver returns the
key and the trimmed fragment with a trailing comma stripped, except
that an empty processed fragment falls back to the sentinel `unknown`;
no JSON validity of the document is required. -/
theorem claim4_kv_line (docLines : List String) (line : Nat)
    (k seg : List Char)
    (h : kvScan (docLines.getD line "").data = some (k, seg)) :
    getPropertyAtPosition docLines line =
      some ⟨String.mk k,
        orUnknown (some (String.mk (stripTrailingComma (jsTrim seg))))⟩ := by
  have hll : lineLocal (docLines.getD line "") =
      (some (String.mk k), some (String.mk (stripTrailingComma (jsTrim seg)))) := by
    unfold lineLocal
    rw [h]
  unfold getPropertyAtPosition
  simp only [hll]

/-- Claim C4, witness: the spec's own example line, on an otherwise
non-JSON document. -/
theorem claim4_witness :
    getPropertyAtPosition ["nonsense \x7b\x7b", "  \"editor.tabSize\": 4,"] 1 =
      some ⟨"editor.tabSize", "4"⟩ :=
  (claim4_kv_line ["nonsense \x7b\x7b", "  \"editor.tabSize\": 4,"] 1
    "editor.tabSize".data "4".data rfl).trans (by decide)

/-- Claim C2, counterexample.  The claim asserts that among several
detected signatures sharing the maximal confidence, the one earliest in
declaration order is selected.  On a workspace satisfying every Node.js
and React check, both score 100, and the reduction returns React — the
later one — because `prev.confidence > current.confidence ? prev :
current` hands a tie to `current`. -/
theorem claim2_counterexample :
    ((analyzeProject exTieFS "/w").filter (·.detected)).map (·.name) =
      ["Node.js", "React"] ∧
    ((analyzeProject exTieFS "/w").filter (·.detected)).map (·.confidence) =
      [100, 100] ∧
    ((selectPrimary ((analyzeProject exTieFS "/w").filter (·.detected))).map
        (·.name)) = some "React" := by
  have hd100 : detectedRule 100 = true := by decide
  have hd0 : detectedRule 0 = false := by decide
  have hnode : scoreType exTieFS "/w" nodeSig =
      { nodeSig with confidence := 100, detected := true } := by
    have h := scoreType_eval exTieFS "/w" nodeSig 1 3 4 100 (by decide)
      (by decide) (by decide) (by norm_num)
    rw [hd100] at h
    exact h
  have hreact : scoreType exTieFS "/w" reactSig =
      { reactSig with confidence := 100, detected := true } := by
    have h := scoreType_eval exTieFS "/w" reactSig 1 4 5 100 (by decide)
      (by decide) (by decide) (by norm_num)
    rw [hd100] at h
    exact h
  have hpy : scoreType exTieFS "/w" pythonSig =
      { pythonSig with confidence := 0, detected := false } := by
    have h := scoreType_eval exTieFS "/w" pythonSig 0 0 5 0 (by decide)
      (by decide) (by decide) (by norm_num)
    rw [hd0] at h
    exact h
  have hall : analyzeProject exTieFS "/w" =
      [{ nodeSig with confidence := 100, detected := true },
       { reactSig with confidence := 100, detected := true },
       { pythonSig with confidence := 0, detected := false }] := by
    simp [analyzeProject, projectTypesInit, hnode, hreact, hpy]
  rw [hall]
  decide

/-- Claim C2, amended: on any non-empty list the selection returns a
signature of maximal confidence, and among several tied at that maximum
the LATEST in iteration order wins: the list decomposes as
`l1 ++ selected :: l2` with everything in `l2` strictly less confident,
so every signature tied with the selected one lies at or before its
position. -/
theorem claim2_primary_selection (l : List ProjectType) (r : ProjectType)
    (hr : selectPrimary l = some r) :
    r ∈ l ∧ (∀ s ∈ l, s.confidence ≤ r.confidence) ∧
    ∃ l1 l2, l = l1 ++ r :: l2 ∧ ∀ s ∈ l2, s.confidence < r.confidence := by
  match l, hr with
  | t :: ts, hr =>
    simp only [selectPrimary, Option.some.injEq] at hr
    subst hr
    obtain ⟨hmax, l1, l2, hdec, hlt⟩ := reducePrimary_last_max ts t
    refine ⟨?_, hmax, l1, l2, hdec, hlt⟩
    rw [hdec]
    exact List.mem_append_right _ (List.mem_cons_self _ _)

/-- Claim C2, witness for the amended theorem: a two-way tie at
confidence 50 selects the second signature, which carries the maximal
confidence and has nothing after it. -/
theorem claim2_witness :
    tieB ∈ [tieA, tieB] ∧
    (∀ s ∈ [tieA, tieB], s.confidence ≤ tieB.confidence) ∧
    ∃ l1 l2, [tieA, tieB] = l1 ++ tieB :: l2 ∧
      ∀ s ∈ l2, s.confidence < tieB.confidence :=
  claim2_primary_selection [tieA, tieB] tieB (by decide)

/-- Claim C5 (code bug).  The claim — the spec's stated contract, and
what the function's own TypeScript return annotation promises — says
every absent name yields the sentinel.  But the property read
`(configDocs as any)[key]` walks the prototype chain: at the failing
input `toString` (likewise `constructor`, `hasOwnProperty`, ...) the
lookup finds the inherited truthy `Object.prototype` member, the `||`
fallback never fires, and the caller receives a function instead of the
sentinel entry — the `as any` cast hides the type violation.  Stored
names still return their exact entry (plain string equality, no case
folding: the case-variant `Editor.TabSize` misses), and absent names
off the prototype do get the sentinel. -/
theorem claim5_proto_leak :
    getConfigDocumentation "toString" = LookupResult.protoMember "toString" ∧
    LookupResult.protoMember "toString" ≠ LookupResult.entry sentinelEntry ∧
    getConfigDocumentation "hasOwnProperty" =
      LookupResult.protoMember "hasOwnProperty" ∧
    getConfigDocumentation "editor.tabSize" =
      LookupResult.entry
        { description := "The number of spaces a tab is equal to. This setting is overridden based on the file contents when editor.detectIndentation is true.",
          type := "number", defaultValue := some "4" } ∧
    getConfigDocumentation "Editor.TabSize" =
      LookupResult.entry sentinelEntry ∧
    getConfigDocumentation "no.such.key" = LookupResult.entry sentinelEntry := by
  refine ⟨by decide, by decide, by decide, by decide, by decide, by decide⟩

/-- Claim C6: for every signature the analyzer scores, the confidence
is `100 * (matched marker files + matched patterns) / (total marker
files + total patterns)` (each pattern counting at most once), detection
is exactly `confidence > 30`, a signature with no checks scores 0 and is
not detected, and `analyze` is precisely the declared signatures run
through this scoring. -/
theorem claim6_confidence_invariant (fs : FileSystem) (dir : String)
    (t : ProjectType) :
    ((scoreType fs dir t).confidence =
      if t.files.length + t.patterns.length > 0 then
        100 * (((matchedFiles fs dir t + matchedPatterns fs dir t : ℕ)) : ℚ) /
          (((t.files.length + t.patterns.length : ℕ)) : ℚ)
      else 0) ∧
    ((scoreType fs dir t).detected =
      decide ((scoreType fs dir t).confidence > 30)) ∧
    (matchedPatterns fs dir t ≤ t.patterns.length) ∧
    (t.files.length + t.patterns.length = 0 →
      (scoreType fs dir t).confidence = 0 ∧
        (scoreType fs dir t).detected = false) ∧
    (analyzeProject fs dir = projectTypesInit.map (scoreType fs dir)) := by
  refine ⟨?_, rfl, ?_, ?_, rfl⟩
  · simp only [scoreType]
    split
    · rw [div_mul_eq_mul_div, mul_comm]
    · rfl
  · unfold matchedPatterns
    cases fs.readdirSync dir with
    | none => exact Nat.zero_le _
    | some files => exact List.length_filter_le _ _
  · intro h0
    simp only [scoreType, h0]
    exact ⟨rfl, rfl⟩

/-- Claim C6, witness: a signature declaring no checks at all scores
confidence 0 and is not detected. -/
theorem claim6_witness :
    (scoreType exTieFS "/w" emptySig).confidence = 0 ∧
    (scoreType exTieFS "/w" emptySig).detected = false :=
  (claim6_confidence_invariant exTieFS "/w" emptySig).2.2.2.1 rfl

/-- Claim C7: when the listing of the directory fails and no marker
file under it exists, the analyzer raises nothing and returns every
declared signature unchanged: confidence 0 and not detected. -/
theorem claim7_unreadable_dir (fs : FileSystem) (dir : String)
    (hls : fs.readdirSync dir = none)
    (hex : ∀ f, fs.existsSync (pathJoin dir f) = false) :
    analyzeProject fs dir = projectTypesInit ∧
    ∀ r ∈ analyzeProject fs dir, r.confidence = 0 ∧ r.detected = false := by
  have h0 : ∀ t : ProjectType, matchedFiles fs dir t = 0 := by
    intro t
    simp [matchedFiles, hex]
  have h1 : ∀ t : ProjectType, matchedPatterns fs dir t = 0 := by
    intro t
    simp [matchedPatterns, hls]
  have hd0 : detectedRule 0 = false := by decide
  have hnode : scoreType fs dir nodeSig = nodeSig := by
    have h := scoreType_eval fs dir nodeSig 0 0 4 0 (h0 _) (h1 _) (by decide)
      (by norm_num)
    rw [hd0] at h
    exact h
  have hreact : scoreType fs dir reactSig = reactSig := by
    have h := scoreType_eval fs dir reactSig 0 0 5 0 (h0 _) (h1 _) (by decide)
      (by norm_num)
    rw [hd0] at h
    exact h
  have hpy : scoreType fs dir pythonSig = pythonSig := by
    have h := scoreType_eval fs dir pythonSig 0 0 5 0 (h0 _) (h1 _) (by decide)
      (by norm_num)
    rw [hd0] at h
    exact h
  have hall : analyzeProject fs dir = projectTypesInit := by
    simp [analyzeProject, projectTypesInit, hnode, hreact, hpy]
  refine ⟨hall, ?_⟩
  rw [hall]
  decide

/-- Claim C7, witness: a filesystem with nothing readable at all. -/
theorem claim7_witness :
    analyzeProject deadFS "/nonexistent" = projectTypesInit :=
  (claim7_unreadable_dir deadFS "/nonexistent" rfl (fun _ => rfl)).1

/-- Claim C8: detection is strict at the threshold — the rule rejects a
confidence of exactly 30 and accepts 30.0001, and every signature the
analyzer returns carries `detected = rule confidence`. -/
theorem claim8_threshold_strict :
    detectedRule 30 = false ∧
    detectedRule (30.0001 : ℚ) = true ∧
    ∀ (fs : FileSystem) (dir : String) (r : ProjectType),
      r ∈ analyzeProject fs dir → r.detected = detectedRule r.confidence := by
  refine ⟨by decide, ?_, ?_⟩
  · simp only [detectedRule, decide_eq_true_eq]
    norm_num
  · intro fs dir r hr
    simp only [analyzeProject, List.mem_map] at hr
    obtain ⟨t, -, rfl⟩ := hr
    rfl

/-- Claim C8, witness for the membership-guarded conjunct, at a
concrete filesystem. -/
theorem claim8_witness :
    (scoreType deadFS "/x" nodeSig).detected =
      detectedRule (scoreType deadFS "/x" nodeSig).confidence :=
  claim8_threshold_strict.2.2 deadFS "/x" _
    (List.mem_map_of_mem _ (List.mem_cons_self _ _))

/-- Claim C9, counterexample.  The claim asserts a path is accepted only
if it actually resides inside the `.vscode` subdirectory.  The path
`/w/.vscodeFake/settings.json` has a listed basename and does not
reside in any `.vscode` directory, yet `isConfigFile` accepts it —
the directory condition is the substring test
`filePath.includes('.vscode')`. -/
theorem claim9_counterexample :
    isConfigFile "/w/.vscodeFake/settings.json" = true ∧
    residesInVscodeDir "/w/.vscodeFake/settings.json" = false ∧
    pathBaseName "/w/.vscodeFake/settings.json" = "settings.json" := by
  decide

/-- Claim C9, amended: the check returns true iff the basename matches
the fixed list exactly and the path merely contains `.vscode` as a
substring; genuine residency inside a `.vscode` directory implies that
substring condition (so every truly resident config file is accepted),
but not conversely. -/
theorem claim9_config_file (p : String) :
    isConfigFile p =
      (containsSub ".vscode".data p.data &&
        ["settings.json", "launch.json", "extensions.json"].contains
          (pathBaseName p)) ∧
    (residesInVscodeDir p = true → containsSub ".vscode".data p.data = true) := by
  constructor
  · rfl
  · intro h
    unfold residesInVscodeDir at h
    rw [List.any_eq_true] at h
    obtain ⟨seg, hmem, hseg⟩ := h
    have hseg' : seg = ".vscode".data := by
      simpa using hseg
    subst hseg'
    exact mem_splitOnSlash_containsSub p.data _
      (List.dropLast_subset _ hmem)

/-- Claim C9, witness for the amended theorem on a genuinely resident
path. -/
theorem claim9_witness :
    isConfigFile "/w/.vscode/settings.json" =
      (containsSub ".vscode".data "/w/.vscode/settings.json".data &&
        ["settings.json", "launch.json", "extensions.json"].contains
          (pathBaseName "/w/.vscode/settings.json")) ∧
    containsSub ".vscode".data "/w/.vscode/settings.json".data = true :=
  ⟨(claim9_config_file "/w/.vscode/settings.json").1,
   (claim9_config_file "/w/.vscode/settings.json").2 (by decide)⟩

/-- Claim C10 (implicit): the wildcard rule replaces only the first `*`
of the pattern with `.*` and tests the result as an unanchored regex in
which the remaining characters — including `.` — keep their regex
meaning.  Consequently the entry `happy` satisfies the rule built from
`*.py` (via the substring `ppy`, with `.` matching `p`) although it does
not end in `.py`, and the Python signature scores that pattern as
matched on a directory containing only `happy`. -/
theorem claim10_wildcard_rule :
    replaceFirstStar "*.py".data = ".*.py".data ∧
    replaceFirstStar "*a*b".data = ".*a*b".data ∧
    testFrom (regexToks (replaceFirstStar "*.py".data)) "happy".data = true ∧
    listIsPrefix ".py".data.reverse "happy".data.reverse = false ∧
    patternHit ["happy"] "*.py" = true ∧
    matchedPatterns exHappyFS "/w" pythonSig = 1 := by
  decide

end VSCS
